import Mathlib

/-!
Verification development for the api-goods repository: a shallow embedding of
the product / author / gallery data model (app/product/models.py), the
composite write path of the product serializer (app/product/serializers.py)
and the ownership-scoped views (app/product/views.py), together with theorems
settling the specification claims about them.

Conventions of the embedding: database rows are records, tables are lists of
rows in insertion order, primary keys are drawn from explicit counters held in
the database state, and image payloads are identified by their file names
(strings).  Each definition is translated from the function of the source
file named in its doc comment.
-/

set_option linter.unusedVariables false

namespace ApiGoods

/-- Author row, from the model Author in app/product/models.py:
a foreign key to the owning user and a name. -/
structure Author where
  id : Nat
  user : Nat
  name : String
deriving Repr, DecidableEq

/-- Product row, from the model Product in app/product/models.py: name,
owning user, price (decimal, default 0), creation timestamp and a nullable
foreign key to Author (on_delete=SET_NULL). -/
structure Product where
  id : Nat
  name : String
  user : Nat
  price : Int
  createdon : Nat
  author : Option Nat
deriving Repr, DecidableEq

/-- Gallery row, from the model Gallery in app/product/models.py: an image
and a required foreign key to Product (on_delete=CASCADE). -/
structure Gallery where
  id : Nat
  image : String
  product : Nat
deriving Repr, DecidableEq

/-- The relational store: the three tables touched by the product API plus
the id counters used for newly inserted rows. -/
structure Db where
  authors : List Author
  products : List Product
  galleries : List Gallery
  nextAuthorId : Nat
  nextProductId : Nat
  nextGalleryId : Nat
deriving Repr, DecidableEq

/-- Insert an element into a list that is sorted by a key in descending
order, keeping it sorted. -/
def insertDesc (key : α → Nat) (a : α) : List α → List α
  | [] => [a]
  | b :: l => if key b ≤ key a then a :: b :: l else b :: insertDesc key a l

/-- Sort a list by a key in descending order; this models the order_by
clause with a descending id used by every get_queryset in
app/product/views.py. -/
def orderByIdDesc (key : α → Nat) (l : List α) : List α :=
  l.foldr (insertDesc key) []

/-- Write a product instance back to its row (the save method of a model
instance whose primary key already exists: an UPDATE of that row). -/
def saveProduct (st : Db) (p : Product) : Db :=
  { st with products := st.products.map (fun q => if q.id = p.id then p else q) }

/-- Delete the author row with the given id.  Product.author is declared
with on_delete=SET_NULL in app/product/models.py, so every product that
referenced the deleted author has its author column set to NULL. -/
def deleteAuthor (st : Db) (aid : Nat) : Db :=
  { st with
    authors := st.authors.filter (fun a => a.id ≠ aid),
    products := st.products.map
      (fun p => if p.author = some aid then { p with author := none } else p) }

/-- Delete the product row with the given id.  Gallery.product is declared
with on_delete=CASCADE in app/product/models.py, so every gallery row of the
deleted product is deleted with it; the author table is not touched. -/
def deleteProduct (st : Db) (pid : Nat) : Db :=
  { st with
    products := st.products.filter (fun p => p.id ≠ pid),
    galleries := st.galleries.filter (fun g => g.product ≠ pid) }

/-- Delete the gallery row with the given id. -/
def deleteGallery (st : Db) (gid : Nat) : Db :=
  { st with galleries := st.galleries.filter (fun g => g.id ≠ gid) }

/-- The nested author payload of the product serializer: either the empty
object (falsy in the serializer code) or an object carrying a name, the one
writable field of AuthorSerializer in app/product/serializers.py. -/
inductive AuthorPayload
  | emptyDict
  | withName (name : String)
deriving Repr, DecidableEq

/-- Validated data of BaseProductSerializer in app/product/serializers.py.
The writable declared fields are name, price, the nested author object and
the image list field named images; a missing optional key is simply absent
from the validated data. -/
structure ValidatedData where
  name? : Option String := none
  price? : Option Int := none
  author? : Option AuthorPayload := none
  images? : Option (List String) := none
deriving Repr, DecidableEq

/-- An incoming request body for a product write, before validation.  On top
of the declared serializer fields it can carry a key named images_to_load,
which the serializer of app/product/serializers.py does NOT declare (its
image list field is named images); the field is kept here so that requests
using that key, as the tests of the repository do, can be expressed. -/
structure RawPayload where
  name? : Option String := none
  price? : Option Int := none
  author? : Option AuthorPayload := none
  images? : Option (List String) := none
  images_to_load? : Option (List String) := none
deriving Repr, DecidableEq

/-- Validation of a request body by BaseProductSerializer: to_internal_value
reads exactly the declared writable fields (name, price, author, images) of
the Meta fields list in app/product/serializers.py and ignores every other
key of the body; in particular a key named images_to_load is dropped. -/
def toInternalValue (p : RawPayload) : ValidatedData :=
  { name? := p.name?, price? := p.price?, author? := p.author?, images? := p.images? }

namespace BaseProductSerializer

/-- Translation of the method that gets or creates the nested author
(app/product/serializers.py, lines 43-53): when the author payload is truthy
(non-empty), Author.objects.get_or_create(user=auth_user, name=n) returns
the first existing row matching the owning user and name, or inserts a new
one when none matches; the product instance is then pointed at that author
row and saved.  An empty (falsy) payload does nothing. -/
def getOrCreateAuthor (st : Db) (authUser : Nat) (author : AuthorPayload)
    (product : Product) : Db × Product :=
  match author with
  | .emptyDict => (st, product)
  | .withName n =>
    match st.authors.find? (fun a => a.user = authUser ∧ a.name = n) with
    | some authorObj =>
      let product := { product with author := some authorObj.id }
      (saveProduct st product, product)
    | none =>
      let authorObj : Author := { id := st.nextAuthorId, user := authUser, name := n }
      let st := { st with authors := st.authors ++ [authorObj],
                          nextAuthorId := st.nextAuthorId + 1 }
      let product := { product with author := some authorObj.id }
      (saveProduct st product, product)

/-- Translation of the method that creates gallery rows
(app/product/serializers.py, lines 56-59): one Gallery row referencing the
product is inserted per supplied image, in list order. -/
def createGalleryImages (st : Db) (images : List String) (product : Product) : Db :=
  images.foldl
    (fun st image =>
      { st with
        galleries := st.galleries ++
          [{ id := st.nextGalleryId, image := image, product := product.id }],
        nextGalleryId := st.nextGalleryId + 1 })
    st

/-- Translation of the create method of BaseProductSerializer
(app/product/serializers.py, lines 61-68): pop the author payload (default
empty object) and the image list (default empty list) out of the validated
data, insert the product row with the remaining fields and the requesting
user as owner, then run the author get-or-create step and the gallery
creation step. -/
def create (st : Db) (authUser : Nat) (vd : ValidatedData) (now : Nat) : Db × Product :=
  let author := (vd.author?).getD .emptyDict
  let images := (vd.images?).getD []
  let product : Product :=
    { id := st.nextProductId, name := (vd.name?).getD "", user := authUser,
      price := (vd.price?).getD 0, createdon := now, author := none }
  let st := { st with products := st.products ++ [product],
                      nextProductId := st.nextProductId + 1 }
  let (st, product) := getOrCreateAuthor st authUser author product
  let st := createGalleryImages st images product
  (st, product)

/-- The author branch of the update method (app/product/serializers.py,
lines 75-79): it runs only when the author key was present in the payload;
when the instance currently references an author, that author row is deleted
(SET_NULL clears the column and refresh_from_db reloads the instance), and
then the get-or-create step runs with the new payload. -/
def updateAuthorStep (st : Db) (authUser : Nat) (author? : Option AuthorPayload)
    (inst : Product) : Db × Product :=
  match author? with
  | none => (st, inst)
  | some author =>
    let (st, inst) :=
      match inst.author with
      | none => (st, inst)
      | some aid => (deleteAuthor st aid, { inst with author := none })
    getOrCreateAuthor st authUser author inst

/-- The images branch of the update method (app/product/serializers.py,
lines 81-86): it runs only when the images key was present in the payload;
the gallery rows of the instance are deleted when any exist, and new rows
are created for the supplied images. -/
def updateImagesStep (st : Db) (images? : Option (List String)) (inst : Product) : Db :=
  match images? with
  | none => st
  | some images =>
    createGalleryImages
      (if (st.galleries.filter (fun g => g.product = inst.id)).isEmpty then st
       else { st with galleries := st.galleries.filter (fun g => ¬ g.product = inst.id) })
      images inst

/-- Translation of the update method of BaseProductSerializer
(app/product/serializers.py, lines 70-92): pop author and images (default
None, meaning the key was absent), run the author branch and the images
branch, assign the remaining scalar fields on the instance and save it. -/
def update (st : Db) (authUser : Nat) (inst : Product) (vd : ValidatedData) :
    Db × Product :=
  let (st, inst) := updateAuthorStep st authUser vd.author? inst
  let st := updateImagesStep st vd.images? inst
  let inst := { inst with name := (vd.name?).getD inst.name,
                          price := (vd.price?).getD inst.price }
  (saveProduct st inst, inst)

end BaseProductSerializer

/-- Outcome of a destroy handler: 204 after a deletion, or 404 when the
object lookup inside the queryset of the view fails. -/
inductive DeleteOutcome
  | deleted
  | notFound
deriving Repr, DecidableEq

namespace ProductViewSet

/-- Queryset of ProductViewSet (app/product/views.py, lines 18-20): products
filtered to the requesting user, ordered by descending id. -/
def getQueryset (st : Db) (requestUser : Nat) : List Product :=
  orderByIdDesc Product.id (st.products.filter (fun p => p.user = requestUser))

/-- Object lookup of the detail routes: the row of the queryset whose
primary key equals the id of the URL, when one exists. -/
def getObject (st : Db) (requestUser : Nat) (pid : Nat) : Option Product :=
  (getQueryset st requestUser).find? (fun p => p.id = pid)

/-- The retrieve handler: the looked-up object, or a 404 (none). -/
def retrieve (st : Db) (requestUser : Nat) (pid : Nat) : Option Product :=
  getObject st requestUser pid

/-- The destroy handler: 404 leaves the store untouched, otherwise the
product row is deleted with its cascade. -/
def destroy (st : Db) (requestUser : Nat) (pid : Nat) : DeleteOutcome × Db :=
  match getObject st requestUser pid with
  | none => (.notFound, st)
  | some p => (.deleted, deleteProduct st p.id)

/-- The PATCH handler: object lookup in the scoped queryset, validation of
the body, then the update method of the serializer. -/
def patchUpdate (st : Db) (requestUser : Nat) (pid : Nat) (raw : RawPayload) :
    Option (Db × Product) :=
  match getObject st requestUser pid with
  | none => none
  | some inst => some (BaseProductSerializer.update st requestUser inst (toInternalValue raw))

end ProductViewSet

namespace AuthorViewSet

/-- Queryset of AuthorViewSet (app/product/views.py, lines 46-48): authors
filtered to the requesting user, ordered by descending id. -/
def getQueryset (st : Db) (requestUser : Nat) : List Author :=
  orderByIdDesc Author.id (st.authors.filter (fun a => a.user = requestUser))

/-- Object lookup of the author detail routes. -/
def getObject (st : Db) (requestUser : Nat) (aid : Nat) : Option Author :=
  (getQueryset st requestUser).find? (fun a => a.id = aid)

/-- The destroy handler of AuthorViewSet. -/
def destroy (st : Db) (requestUser : Nat) (aid : Nat) : DeleteOutcome × Db :=
  match getObject st requestUser aid with
  | none => (.notFound, st)
  | some a => (.deleted, deleteAuthor st a.id)

end AuthorViewSet

namespace GalleryView

/-- Queryset of GalleryView (app/product/views.py, lines 58-59): gallery
rows filtered by the product id taken from the URL, ordered by descending
id.  The requesting user is NOT part of the filter. -/
def getQueryset (st : Db) (requestUser : Nat) (idKwarg : Nat) : List Gallery :=
  orderByIdDesc Gallery.id (st.galleries.filter (fun g => g.product = idKwarg))

end GalleryView

namespace GalleryDetailView

/-- Queryset of GalleryDetailView (app/product/views.py, lines 74-75):
gallery rows filtered by the product id taken from the URL, ordered by
descending id.  The requesting user is NOT part of the filter. -/
def getQueryset (st : Db) (requestUser : Nat) (idKwarg : Nat) : List Gallery :=
  orderByIdDesc Gallery.id (st.galleries.filter (fun g => g.product = idKwarg))

/-- Object lookup of the gallery detail route: the row of the queryset whose
primary key equals the gallery_id of the URL. -/
def getObject (st : Db) (requestUser : Nat) (idKwarg galleryId : Nat) : Option Gallery :=
  (getQueryset st requestUser idKwarg).find? (fun g => g.id = galleryId)

/-- The delete handler of GalleryDetailView: destroy of the looked-up row,
404 when the lookup fails. -/
def destroy (st : Db) (requestUser : Nat) (idKwarg galleryId : Nat) :
    DeleteOutcome × Db :=
  match getObject st requestUser idKwarg galleryId with
  | none => (.notFound, st)
  | some g => (.deleted, deleteGallery st g.id)

end GalleryDetailView

/-- A declared serializer field as it matters for read serialization: its
name (which is also its source attribute, no field of the product
serializers sets a source) and whether it is required. -/
structure SerializerField where
  fieldName : String
  required : Bool
deriving Repr, DecidableEq

/-- Declared fields of ProductGetSerializer (app/product/serializers.py,
lines 95-100, inheriting the Meta fields list of BaseProductSerializer):
id and createdon are read-only, price has a model default, author and
images are declared with required=False, name is required. -/
def productGetSerializerFields : List SerializerField :=
  [⟨"id", false⟩, ⟨"name", true⟩, ⟨"price", false⟩, ⟨"createdon", false⟩,
   ⟨"author", false⟩, ⟨"images", false⟩]

/-- Names of the attributes present on a Product model instance: the
concrete columns of the model Product in app/product/models.py plus the
reverse accessor gallery_set of the Gallery foreign key, which is declared
without a related_name. -/
def productModelAttributeNames : List String :=
  ["id", "name", "user", "price", "createdon", "author", "gallery_set"]

/-- Read serialization of an instance, at the level of which keys appear in
the output: for each declared field the serializer fetches the source
attribute; an existing attribute yields an output key, a missing attribute
raises (none, an attribute error surfacing as a server error) when the
field is required and is silently skipped when it is not. -/
def toRepresentationKeys (attrs : List String) : List SerializerField → Option (List String)
  | [] => some []
  | f :: rest =>
    if f.fieldName ∈ attrs then
      (toRepresentationKeys attrs rest).map (f.fieldName :: ·)
    else if f.required then none
    else toRepresentationKeys attrs rest

/-- Declared fields of ProductChangeSerializer: the same Meta fields list
inherited from BaseProductSerializer (its images field is the ListField,
also declared with required=False). -/
def productChangeSerializerFields : List SerializerField :=
  [⟨"id", false⟩, ⟨"name", true⟩, ⟨"price", false⟩, ⟨"createdon", false⟩,
   ⟨"author", false⟩, ⟨"images", false⟩]

/-- Serializer class selection of ProductViewSet
(app/product/views.py, lines 22-29): the list and retrieve actions use
ProductGetSerializer; every other action uses ProductChangeSerializer. -/
def getSerializerClassFields (action : String) : List SerializerField :=
  if action = "list" then productGetSerializerFields
  else if action = "retrieve" then productGetSerializerFields
  else productChangeSerializerFields

/-! Helper lemmas about the list operations of the embedding. -/

theorem mem_insertDesc (key : α → Nat) (a x : α) (l : List α) :
    x ∈ insertDesc key a l ↔ x = a ∨ x ∈ l := by
  induction l with
  | nil => simp [insertDesc]
  | cons b t ih =>
    simp only [insertDesc]
    by_cases h : key b ≤ key a
    · simp [h]
    · simp [h, ih]
      tauto

theorem mem_orderByIdDesc (key : α → Nat) (x : α) (l : List α) :
    x ∈ orderByIdDesc key l ↔ x ∈ l := by
  induction l with
  | nil => simp [orderByIdDesc]
  | cons b t ih =>
    simp only [orderByIdDesc, List.foldr] at ih ⊢
    rw [mem_insertDesc]
    simp [ih]

theorem find?_orderByIdDesc_eq_none (key : α → Nat) (p : α → Bool) (l : List α)
    (h : ∀ x ∈ l, ¬ p x) : (orderByIdDesc key l).find? p = none := by
  rw [List.find?_eq_none]
  intro x hx
  exact h x ((mem_orderByIdDesc key x l).mp hx)

theorem find?_append_of_none {p : α → Bool} {l m : List α} (h : l.find? p = none) :
    (l ++ m).find? p = m.find? p := by
  induction l with
  | nil => simp
  | cons a t ih =>
    simp only [List.cons_append, List.find?_cons] at h ⊢
    cases hp : p a with
    | false => simp only [hp] at h ⊢; exact ih h
    | true => simp [hp] at h

/-- A concrete store used by the witnesses: two users, each owning one
author, one product (the product of user 1 references author 1, the product
of user 2 references author 2) and one gallery row per product. -/
def dbW : Db :=
  { authors := [⟨1, 1, "Author A"⟩, ⟨2, 2, "Author B"⟩],
    products := [⟨1, "P1", 1, 5, 0, some 1⟩, ⟨2, "P2", 2, 7, 0, some 2⟩],
    galleries := [⟨1, "img1.jpg", 1⟩, ⟨2, "img2.jpg", 2⟩],
    nextAuthorId := 3, nextProductId := 3, nextGalleryId := 3 }

/-! Claim theorems. -/

/-- C6: a product owned by user u is never visible to a different
authenticated user v: it is absent from the list queryset of v, a detail
retrieve of it by v yields not-found (none), and every row of the list
queryset of v is owned by v. -/
theorem C6_product_reads_scoped_to_owner (st : Db) (u v : Nat) (p : Product)
    (hnd : (st.products.map Product.id).Nodup)
    (hp : p ∈ st.products) (hpu : p.user = u) (hvu : v ≠ u) :
    p ∉ ProductViewSet.getQueryset st v ∧
    ProductViewSet.retrieve st v p.id = none ∧
    ∀ q ∈ ProductViewSet.getQueryset st v, q.user = v := by
  have hmem : ∀ q : Product, q ∈ ProductViewSet.getQueryset st v ↔
      q ∈ st.products ∧ q.user = v := by
    intro q
    unfold ProductViewSet.getQueryset
    rw [mem_orderByIdDesc, List.mem_filter]
    simp
  refine ⟨?_, ?_, ?_⟩
  · intro hin
    have := (hmem p).mp hin
    exact hvu (hpu ▸ this.2.symm)
  · unfold ProductViewSet.retrieve ProductViewSet.getObject ProductViewSet.getQueryset
    apply find?_orderByIdDesc_eq_none
    intro x hx
    have hx' := List.mem_filter.mp hx
    simp only [decide_eq_true_eq] at hx'
    simp only [decide_eq_true_eq, Bool.not_eq_true]
    intro hxid
    have hxp : x = p := List.inj_on_of_nodup_map hnd hx'.1 hp hxid
    exact absurd (hxp ▸ hx'.2) (by rw [hpu]; exact fun h => hvu h.symm)
  · intro q hq
    exact ((hmem q).mp hq).2

/-- Witness for C6 at a concrete store: user 2 cannot see the product of
user 1. -/
theorem C6_product_reads_scoped_to_owner_witness :
    ((dbW.products.map Product.id).Nodup ∧
      (⟨1, "P1", 1, 5, 0, some 1⟩ : Product) ∈ dbW.products ∧
      (⟨1, "P1", 1, 5, 0, some 1⟩ : Product).user = 1 ∧
      (2 : Nat) ≠ (1 : Nat)) ∧
    ((⟨1, "P1", 1, 5, 0, some 1⟩ : Product) ∉ ProductViewSet.getQueryset dbW 2 ∧
      ProductViewSet.retrieve dbW 2 1 = none ∧
      ∀ q ∈ ProductViewSet.getQueryset dbW 2, q.user = 2) := by
  refine ⟨by decide, ?_⟩
  have h := C6_product_reads_scoped_to_owner dbW 1 2 ⟨1, "P1", 1, 5, 0, some 1⟩
    (by decide) (by decide) (by decide) (by decide)
  exact h

/-- The object lookup of the product detail routes fails when the row with
the requested id belongs to a different user. -/
theorem productGetObject_none_of_other_user (st : Db) (u v : Nat) (p : Product)
    (hnd : (st.products.map Product.id).Nodup)
    (hp : p ∈ st.products) (hpu : p.user = u) (hvu : v ≠ u) :
    ProductViewSet.getObject st v p.id = none := by
  unfold ProductViewSet.getObject ProductViewSet.getQueryset
  apply find?_orderByIdDesc_eq_none
  intro x hx
  have hx' := List.mem_filter.mp hx
  simp only [decide_eq_true_eq] at hx'
  simp only [decide_eq_true_eq, Bool.not_eq_true]
  intro hxid
  have hxp : x = p := List.inj_on_of_nodup_map hnd hx'.1 hp hxid
  exact absurd (hxp ▸ hx'.2) (by rw [hpu]; exact fun h => hvu h.symm)

/-- The object lookup of the author detail routes fails when the row with
the requested id belongs to a different user. -/
theorem authorGetObject_none_of_other_user (st : Db) (u v : Nat) (a : Author)
    (hnd : (st.authors.map Author.id).Nodup)
    (ha : a ∈ st.authors) (hau : a.user = u) (hvu : v ≠ u) :
    AuthorViewSet.getObject st v a.id = none := by
  unfold AuthorViewSet.getObject AuthorViewSet.getQueryset
  apply find?_orderByIdDesc_eq_none
  intro x hx
  have hx' := List.mem_filter.mp hx
  simp only [decide_eq_true_eq] at hx'
  simp only [decide_eq_true_eq, Bool.not_eq_true]
  intro hxid
  have hxa : x = a := List.inj_on_of_nodup_map hnd hx'.1 ha hxid
  exact absurd (hxa ▸ hx'.2) (by rw [hau]; exact fun h => hvu h.symm)

/-- C8: a DELETE of a product row or of an author row owned by user u,
requested by a different authenticated user v, returns not-found and the
store (so in particular the targeted row) is unchanged. -/
theorem C8_delete_other_users_row_not_found (st : Db) (u v : Nat) (p : Product) (a : Author)
    (hndp : (st.products.map Product.id).Nodup)
    (hnda : (st.authors.map Author.id).Nodup)
    (hp : p ∈ st.products) (ha : a ∈ st.authors)
    (hpu : p.user = u) (hau : a.user = u) (hvu : v ≠ u) :
    ProductViewSet.destroy st v p.id = (.notFound, st) ∧
    AuthorViewSet.destroy st v a.id = (.notFound, st) := by
  constructor
  · unfold ProductViewSet.destroy
    rw [productGetObject_none_of_other_user st u v p hndp hp hpu hvu]
  · unfold AuthorViewSet.destroy
    rw [authorGetObject_none_of_other_user st u v a hnda ha hau hvu]

/-- Witness for C8 at a concrete store: user 2 cannot delete the product or
the author of user 1, and the store is unchanged. -/
theorem C8_delete_other_users_row_not_found_witness :
    ((dbW.products.map Product.id).Nodup ∧ (dbW.authors.map Author.id).Nodup ∧
      (⟨1, "P1", 1, 5, 0, some 1⟩ : Product) ∈ dbW.products ∧
      (⟨1, 1, "Author A"⟩ : Author) ∈ dbW.authors ∧
      (⟨1, "P1", 1, 5, 0, some 1⟩ : Product).user = 1 ∧
      (⟨1, 1, "Author A"⟩ : Author).user = 1 ∧ (2 : Nat) ≠ (1 : Nat)) ∧
    (ProductViewSet.destroy dbW 2 1 = (.notFound, dbW) ∧
      AuthorViewSet.destroy dbW 2 1 = (.notFound, dbW)) := by
  refine ⟨by decide, ?_⟩
  exact C8_delete_other_users_row_not_found dbW 1 2 ⟨1, "P1", 1, 5, 0, some 1⟩
    ⟨1, 1, "Author A"⟩ (by decide) (by decide) (by decide) (by decide)
    (by decide) (by decide) (by decide)

/-- C9: a successful delete of a product removes every gallery row that
references it, keeps every gallery row of other products, and leaves the
author table (so in particular the author attached to the product, when
any) unchanged. -/
theorem C9_product_delete_cascades_gallery_spares_author (st : Db) (u pid : Nat)
    (p : Product) (hobj : ProductViewSet.getObject st u pid = some p) :
    (ProductViewSet.destroy st u pid).1 = .deleted ∧
    (ProductViewSet.destroy st u pid).2.authors = st.authors ∧
    (∀ g ∈ (ProductViewSet.destroy st u pid).2.galleries, g.product ≠ pid) ∧
    (∀ g ∈ st.galleries, g.product ≠ pid →
      g ∈ (ProductViewSet.destroy st u pid).2.galleries) := by
  have hobj' := hobj
  unfold ProductViewSet.getObject at hobj'
  have hpid : p.id = pid := by
    have := List.find?_some hobj'
    simpa using this
  have hdest : ProductViewSet.destroy st u pid = (.deleted, deleteProduct st p.id) := by
    unfold ProductViewSet.destroy
    rw [hobj]
  rw [hdest]
  subst hpid
  refine ⟨rfl, rfl, ?_, ?_⟩
  · intro g hg
    simp only [deleteProduct] at hg
    have := List.mem_filter.mp hg
    simpa using this.2
  · intro g hg hgp
    simp only [deleteProduct]
    exact List.mem_filter.mpr ⟨hg, by simpa using hgp⟩

/-- Witness for C9 at a concrete store: the owner deletes product 1; its
gallery row disappears, the gallery row of product 2 stays, and the author
table is unchanged. -/
theorem C9_product_delete_cascades_gallery_spares_author_witness :
    (ProductViewSet.getObject dbW 1 1 = some ⟨1, "P1", 1, 5, 0, some 1⟩) ∧
    ((ProductViewSet.destroy dbW 1 1).1 = .deleted ∧
      (ProductViewSet.destroy dbW 1 1).2.authors = dbW.authors ∧
      (∀ g ∈ (ProductViewSet.destroy dbW 1 1).2.galleries, g.product ≠ 1) ∧
      (∀ g ∈ dbW.galleries, g.product ≠ 1 →
        g ∈ (ProductViewSet.destroy dbW 1 1).2.galleries)) := by
  refine ⟨by decide, ?_⟩
  exact C9_product_delete_cascades_gallery_spares_author dbW 1 1
    ⟨1, "P1", 1, 5, 0, some 1⟩ (by decide)

/-! Characterizations of the serializer building blocks. -/

/-- The gallery rows created for an image list: one row per image, in list
order, with consecutive ids starting at the given counter value, all
referencing the given product. -/
def galleryRowsFrom (startId pid : Nat) : List String → List Gallery
  | [] => []
  | img :: rest => ⟨startId, img, pid⟩ :: galleryRowsFrom (startId + 1) pid rest

theorem galleryRowsFrom_product (startId pid : Nat) (imgs : List String) :
    ∀ g ∈ galleryRowsFrom startId pid imgs, g.product = pid := by
  induction imgs generalizing startId with
  | nil => simp [galleryRowsFrom]
  | cons img rest ih =>
    intro g hg
    simp only [galleryRowsFrom, List.mem_cons] at hg
    rcases hg with h | h
    · rw [h]
    · exact ih (startId + 1) g h

theorem galleryRowsFrom_map_image (startId pid : Nat) (imgs : List String) :
    (galleryRowsFrom startId pid imgs).map Gallery.image = imgs := by
  induction imgs generalizing startId with
  | nil => simp [galleryRowsFrom]
  | cons img rest ih => simp [galleryRowsFrom, ih]

theorem createGalleryImages_spec (imgs : List String) (st : Db) (pr : Product) :
    BaseProductSerializer.createGalleryImages st imgs pr =
      { st with
        galleries := st.galleries ++ galleryRowsFrom st.nextGalleryId pr.id imgs,
        nextGalleryId := st.nextGalleryId + imgs.length } := by
  induction imgs generalizing st with
  | nil => simp [BaseProductSerializer.createGalleryImages, galleryRowsFrom]
  | cons img rest ih =>
    have h1 : BaseProductSerializer.createGalleryImages st (img :: rest) pr =
        BaseProductSerializer.createGalleryImages
          { st with
            galleries := st.galleries ++ [⟨st.nextGalleryId, img, pr.id⟩],
            nextGalleryId := st.nextGalleryId + 1 } rest pr := rfl
    rw [h1, ih]
    simp only [galleryRowsFrom]
    cases st
    simp [List.append_assoc]
    omega

theorem getOrCreateAuthor_emptyDict (st : Db) (u : Nat) (pr : Product) :
    BaseProductSerializer.getOrCreateAuthor st u .emptyDict pr = (st, pr) := rfl

theorem getOrCreateAuthor_found (st : Db) (u : Nat) (n : String) (pr : Product)
    (b : Author) (hf : st.authors.find? (fun a => a.user = u ∧ a.name = n) = some b) :
    BaseProductSerializer.getOrCreateAuthor st u (.withName n) pr =
      (saveProduct st { pr with author := some b.id }, { pr with author := some b.id }) := by
  simp only [BaseProductSerializer.getOrCreateAuthor]
  rw [hf]

theorem getOrCreateAuthor_not_found (st : Db) (u : Nat) (n : String) (pr : Product)
    (hf : st.authors.find? (fun a => a.user = u ∧ a.name = n) = none) :
    BaseProductSerializer.getOrCreateAuthor st u (.withName n) pr =
      (saveProduct
        { st with authors := st.authors ++ [⟨st.nextAuthorId, u, n⟩],
                  nextAuthorId := st.nextAuthorId + 1 }
        { pr with author := some st.nextAuthorId },
       { pr with author := some st.nextAuthorId }) := by
  simp only [BaseProductSerializer.getOrCreateAuthor]
  rw [hf]

theorem getOrCreateAuthor_frame (st : Db) (u : Nat) (ap : AuthorPayload) (pr : Product) :
    (BaseProductSerializer.getOrCreateAuthor st u ap pr).1.galleries = st.galleries ∧
    (BaseProductSerializer.getOrCreateAuthor st u ap pr).1.nextGalleryId = st.nextGalleryId ∧
    (BaseProductSerializer.getOrCreateAuthor st u ap pr).2.id = pr.id ∧
    (BaseProductSerializer.getOrCreateAuthor st u ap pr).2.name = pr.name ∧
    (BaseProductSerializer.getOrCreateAuthor st u ap pr).2.price = pr.price ∧
    (BaseProductSerializer.getOrCreateAuthor st u ap pr).2.user = pr.user ∧
    (BaseProductSerializer.getOrCreateAuthor st u ap pr).2.createdon = pr.createdon := by
  cases ap with
  | emptyDict => exact ⟨rfl, rfl, rfl, rfl, rfl, rfl, rfl⟩
  | withName n =>
    cases hf : st.authors.find? (fun a => a.user = u ∧ a.name = n) with
    | some b =>
      rw [getOrCreateAuthor_found st u n pr b hf]
      simp [saveProduct]
    | none =>
      rw [getOrCreateAuthor_not_found st u n pr hf]
      simp [saveProduct]

theorem updateAuthorStep_frame (st : Db) (u : Nat) (ap? : Option AuthorPayload)
    (inst : Product) :
    (BaseProductSerializer.updateAuthorStep st u ap? inst).1.galleries = st.galleries ∧
    (BaseProductSerializer.updateAuthorStep st u ap? inst).1.nextGalleryId = st.nextGalleryId ∧
    (BaseProductSerializer.updateAuthorStep st u ap? inst).2.id = inst.id ∧
    (BaseProductSerializer.updateAuthorStep st u ap? inst).2.name = inst.name ∧
    (BaseProductSerializer.updateAuthorStep st u ap? inst).2.price = inst.price := by
  cases ap? with
  | none => exact ⟨rfl, rfl, rfl, rfl, rfl⟩
  | some ap =>
    cases hia : inst.author with
    | none =>
      have hstep : BaseProductSerializer.updateAuthorStep st u (some ap) inst =
          BaseProductSerializer.getOrCreateAuthor st u ap inst := by
        simp only [BaseProductSerializer.updateAuthorStep, hia]
      rw [hstep]
      have h := getOrCreateAuthor_frame st u ap inst
      exact ⟨h.1, h.2.1, h.2.2.1, h.2.2.2.1, h.2.2.2.2.1⟩
    | some aid =>
      have hstep : BaseProductSerializer.updateAuthorStep st u (some ap) inst =
          BaseProductSerializer.getOrCreateAuthor (deleteAuthor st aid) u ap
            { inst with author := none } := by
        simp only [BaseProductSerializer.updateAuthorStep, hia]
      rw [hstep]
      have h := getOrCreateAuthor_frame (deleteAuthor st aid) u ap { inst with author := none }
      simp only [deleteAuthor] at h
      exact ⟨h.1, h.2.1, h.2.2.1, h.2.2.2.1, h.2.2.2.2.1⟩

theorem updateImagesStep_frame (st : Db) (imgs? : Option (List String)) (inst : Product) :
    (BaseProductSerializer.updateImagesStep st imgs? inst).authors = st.authors ∧
    (BaseProductSerializer.updateImagesStep st imgs? inst).products = st.products := by
  cases imgs? with
  | none => exact ⟨rfl, rfl⟩
  | some imgs =>
    simp only [BaseProductSerializer.updateImagesStep]
    by_cases h : (st.galleries.filter (fun g => g.product = inst.id)).isEmpty = true
    · rw [if_pos h, createGalleryImages_spec]
      exact ⟨rfl, rfl⟩
    · rw [if_neg h, createGalleryImages_spec]
      exact ⟨rfl, rfl⟩

/-- C1 counterexample: in the concrete store dbW, gallery row 1 belongs to
product 1 of user 1, yet the authenticated user 2 sees it in the gallery
list of product 1 and a DELETE on the gallery detail endpoint by user 2 is
not rejected as not-found: it deletes the row. -/
theorem C1_counterexample_gallery_cross_user_access :
    (⟨1, "img1.jpg", 1⟩ : Gallery) ∈ GalleryView.getQueryset dbW 2 1 ∧
    GalleryDetailView.destroy dbW 2 1 1 =
      (.deleted, { dbW with galleries := [⟨2, "img2.jpg", 2⟩] }) := by
  decide

/-- C1 amended: the gallery endpoints scope their rows by the product id of
the URL only, never by the requesting user: the queryset, the object lookup
and the delete outcome are identical for any two authenticated users, and a
gallery row is served exactly when it references the product id of the URL,
whoever owns that product. -/
theorem C1_amended_gallery_scoped_by_product_only (st : Db) (u v pid gid : Nat) :
    GalleryView.getQueryset st u pid = GalleryView.getQueryset st v pid ∧
    GalleryDetailView.getObject st u pid gid = GalleryDetailView.getObject st v pid gid ∧
    GalleryDetailView.destroy st u pid gid = GalleryDetailView.destroy st v pid gid ∧
    ∀ g : Gallery, g ∈ GalleryView.getQueryset st u pid ↔
      g ∈ st.galleries ∧ g.product = pid := by
  refine ⟨rfl, rfl, rfl, ?_⟩
  intro g
  unfold GalleryView.getQueryset
  rw [mem_orderByIdDesc, List.mem_filter]
  simp

/-- C10: for the list and the retrieve actions the view serializes products
with ProductGetSerializer; its declared field images has no matching
attribute on a product instance (the Gallery foreign key declares no
related_name, so the reverse accessor is gallery_set), and being declared
with required=False the field is skipped, so the serialized output never
contains an images key. -/
theorem C10_read_serialization_never_outputs_images :
    toRepresentationKeys productModelAttributeNames (getSerializerClassFields "list") =
      some ["id", "name", "price", "createdon", "author"] ∧
    toRepresentationKeys productModelAttributeNames (getSerializerClassFields "retrieve") =
      some ["id", "name", "price", "createdon", "author"] ∧
    "images" ∉ ["id", "name", "price", "createdon", "author"] := by
  decide

/-- C2 under the code as written: a PATCH whose body carries the key
images_to_load (the key used by the tests of the repository) mapped to the
empty list validates to an empty validated data, because the serializer of
app/product/serializers.py declares its image list field under the name
images; the update therefore succeeds without touching the gallery, and in
the concrete store dbW the gallery row of product 1 still exists
afterwards, contradicting the claim that the gallery is cleared. -/
theorem C2_images_to_load_key_is_ignored :
    toInternalValue { images_to_load? := some [] } = ({} : ValidatedData) ∧
    (ProductViewSet.patchUpdate dbW 1 1 { images_to_load? := some [] }).map
        (fun r => r.1.galleries) = some dbW.galleries ∧
    dbW.galleries.filter (fun g => g.product = 1) ≠ [] := by
  decide

theorem update_unfold (st : Db) (u : Nat) (inst : Product) (vd : ValidatedData) :
    BaseProductSerializer.update st u inst vd =
      (saveProduct
        (BaseProductSerializer.updateImagesStep
          (BaseProductSerializer.updateAuthorStep st u vd.author? inst).1 vd.images?
          (BaseProductSerializer.updateAuthorStep st u vd.author? inst).2)
        { (BaseProductSerializer.updateAuthorStep st u vd.author? inst).2 with
          name := (vd.name?).getD
            (BaseProductSerializer.updateAuthorStep st u vd.author? inst).2.name,
          price := (vd.price?).getD
            (BaseProductSerializer.updateAuthorStep st u vd.author? inst).2.price },
       { (BaseProductSerializer.updateAuthorStep st u vd.author? inst).2 with
         name := (vd.name?).getD
           (BaseProductSerializer.updateAuthorStep st u vd.author? inst).2.name,
         price := (vd.price?).getD
           (BaseProductSerializer.updateAuthorStep st u vd.author? inst).2.price }) := by
  cases hA : BaseProductSerializer.updateAuthorStep st u vd.author? inst with
  | mk a b => simp only [BaseProductSerializer.update, hA]

theorem filter_product_galleryRowsFrom (n pid : Nat) (imgs : List String) :
    (galleryRowsFrom n pid imgs).filter (fun g => g.product = pid) =
      galleryRowsFrom n pid imgs := by
  rw [List.filter_eq_self]
  intro g hg
  simpa using galleryRowsFrom_product n pid imgs g hg

theorem filter_not_product_galleryRowsFrom (n pid : Nat) (imgs : List String) :
    (galleryRowsFrom n pid imgs).filter (fun g => ¬ g.product = pid) = [] := by
  rw [List.filter_eq_nil_iff]
  intro g hg
  simpa using galleryRowsFrom_product n pid imgs g hg

theorem filter_product_of_filter_not (l : List Gallery) (pid : Nat) :
    (l.filter (fun g => ¬ g.product = pid)).filter (fun g => g.product = pid) = [] := by
  rw [List.filter_eq_nil_iff]
  intro g hg
  have h2 := (List.mem_filter.mp hg).2
  simpa using h2

theorem filter_not_product_idem (l : List Gallery) (pid : Nat) :
    (l.filter (fun g => ¬ g.product = pid)).filter (fun g => ¬ g.product = pid) =
      l.filter (fun g => ¬ g.product = pid) := by
  rw [List.filter_eq_self]
  intro g hg
  exact (List.mem_filter.mp hg).2

theorem update_fst_galleries (st : Db) (u : Nat) (inst : Product) (vd : ValidatedData) :
    (BaseProductSerializer.update st u inst vd).1.galleries =
      (BaseProductSerializer.updateImagesStep
        (BaseProductSerializer.updateAuthorStep st u vd.author? inst).1 vd.images?
        (BaseProductSerializer.updateAuthorStep st u vd.author? inst).2).galleries := rfl

theorem update_fst_authors (st : Db) (u : Nat) (inst : Product) (vd : ValidatedData) :
    (BaseProductSerializer.update st u inst vd).1.authors =
      (BaseProductSerializer.updateImagesStep
        (BaseProductSerializer.updateAuthorStep st u vd.author? inst).1 vd.images?
        (BaseProductSerializer.updateAuthorStep st u vd.author? inst).2).authors := rfl

theorem update_snd_author (st : Db) (u : Nat) (inst : Product) (vd : ValidatedData) :
    (BaseProductSerializer.update st u inst vd).2.author =
      (BaseProductSerializer.updateAuthorStep st u vd.author? inst).2.author := rfl

theorem update_snd_name (st : Db) (u : Nat) (inst : Product) (vd : ValidatedData) :
    (BaseProductSerializer.update st u inst vd).2.name =
      (vd.name?).getD (BaseProductSerializer.updateAuthorStep st u vd.author? inst).2.name :=
  rfl

theorem update_snd_price (st : Db) (u : Nat) (inst : Product) (vd : ValidatedData) :
    (BaseProductSerializer.update st u inst vd).2.price =
      (vd.price?).getD (BaseProductSerializer.updateAuthorStep st u vd.author? inst).2.price :=
  rfl

theorem updateImagesStep_galleries_of_empty (st : Db) (imgs : List String) (inst : Product)
    (h : st.galleries.filter (fun g => g.product = inst.id) = []) :
    (BaseProductSerializer.updateImagesStep st (some imgs) inst).galleries =
      st.galleries ++ galleryRowsFrom st.nextGalleryId inst.id imgs := by
  simp only [BaseProductSerializer.updateImagesStep]
  rw [if_pos (List.isEmpty_iff.mpr h), createGalleryImages_spec]

theorem updateImagesStep_galleries_of_nonempty (st : Db) (imgs : List String) (inst : Product)
    (h : st.galleries.filter (fun g => g.product = inst.id) ≠ []) :
    (BaseProductSerializer.updateImagesStep st (some imgs) inst).galleries =
      st.galleries.filter (fun g => ¬ g.product = inst.id) ++
        galleryRowsFrom st.nextGalleryId inst.id imgs := by
  simp only [BaseProductSerializer.updateImagesStep]
  rw [if_neg (fun hc => h (List.isEmpty_iff.mp hc)), createGalleryImages_spec]

/-- C5: when the validated payload of an update contains the image-list
field, the gallery of the product is replaced wholesale: afterwards the
gallery rows referencing the product carry exactly the supplied images in
list order (so an empty supplied list leaves the product with zero gallery
rows), and the gallery rows of other products are untouched. -/
theorem C5_update_replaces_gallery_wholesale (st : Db) (u : Nat) (inst : Product)
    (vd : ValidatedData) (imgs : List String) (hi : vd.images? = some imgs) :
    ((BaseProductSerializer.update st u inst vd).1.galleries.filter
        (fun g => g.product = inst.id)).map Gallery.image = imgs ∧
    (BaseProductSerializer.update st u inst vd).1.galleries.filter
        (fun g => ¬ g.product = inst.id) =
      st.galleries.filter (fun g => ¬ g.product = inst.id) := by
  obtain ⟨hg1, hn1, hid1, -, -⟩ := updateAuthorStep_frame st u vd.author? inst
  rw [update_fst_galleries, hi]
  by_cases hemp :
      (BaseProductSerializer.updateAuthorStep st u vd.author? inst).1.galleries.filter
        (fun g => g.product =
          (BaseProductSerializer.updateAuthorStep st u vd.author? inst).2.id) = []
  · rw [updateImagesStep_galleries_of_empty _ _ _ hemp]
    rw [hg1, hid1] at hemp
    rw [hg1, hn1, hid1]
    constructor
    · rw [List.filter_append, hemp, filter_product_galleryRowsFrom]
      simp [galleryRowsFrom_map_image]
    · rw [List.filter_append, filter_not_product_galleryRowsFrom]
      simp
  · rw [updateImagesStep_galleries_of_nonempty _ _ _ hemp]
    rw [hg1, hn1, hid1]
    constructor
    · rw [List.filter_append, filter_product_of_filter_not, filter_product_galleryRowsFrom]
      simp [galleryRowsFrom_map_image]
    · rw [List.filter_append, filter_not_product_idem, filter_not_product_galleryRowsFrom]
      simp

/-- Witness for C5 at a concrete store: updating product 1 of dbW with two
images replaces its single gallery row by two rows carrying exactly those
images, leaving the gallery row of product 2 alone. -/
theorem C5_update_replaces_gallery_wholesale_witness :
    (({ images? := some ["a.jpg", "b.jpg"] } : ValidatedData).images? =
      some ["a.jpg", "b.jpg"]) ∧
    (((BaseProductSerializer.update dbW 1 ⟨1, "P1", 1, 5, 0, some 1⟩
          { images? := some ["a.jpg", "b.jpg"] }).1.galleries.filter
        (fun g => g.product = 1)).map Gallery.image = ["a.jpg", "b.jpg"] ∧
      (BaseProductSerializer.update dbW 1 ⟨1, "P1", 1, 5, 0, some 1⟩
          { images? := some ["a.jpg", "b.jpg"] }).1.galleries.filter
        (fun g => ¬ g.product = 1) =
        dbW.galleries.filter (fun g => ¬ g.product = 1)) := by
  refine ⟨rfl, ?_⟩
  exact C5_update_replaces_gallery_wholesale dbW 1 ⟨1, "P1", 1, 5, 0, some 1⟩
    { images? := some ["a.jpg", "b.jpg"] } ["a.jpg", "b.jpg"] rfl

/-- C7: frame of the update path.  When the author key is absent from the
validated payload, the author table and the author reference of the product
are unchanged; when the image-list key is absent, the gallery table is
unchanged; scalar fields carried by the payload are applied regardless. -/
theorem C7_update_frame_absent_keys (st : Db) (u : Nat) (inst : Product)
    (vd : ValidatedData) :
    (vd.author? = none →
      (BaseProductSerializer.update st u inst vd).1.authors = st.authors ∧
      (BaseProductSerializer.update st u inst vd).2.author = inst.author) ∧
    (vd.images? = none →
      (BaseProductSerializer.update st u inst vd).1.galleries = st.galleries) ∧
    (∀ n, vd.name? = some n → (BaseProductSerializer.update st u inst vd).2.name = n) ∧
    (∀ c, vd.price? = some c → (BaseProductSerializer.update st u inst vd).2.price = c) := by
  refine ⟨?_, ?_, ?_, ?_⟩
  · intro ha
    constructor
    · rw [update_fst_authors, ha]
      rw [(updateImagesStep_frame
        (BaseProductSerializer.updateAuthorStep st u none inst).1 vd.images?
        (BaseProductSerializer.updateAuthorStep st u none inst).2).1]
      rfl
    · rw [update_snd_author, ha]
      rfl
  · intro hi
    rw [update_fst_galleries, hi]
    exact (updateAuthorStep_frame st u vd.author? inst).1
  · intro n hn
    rw [update_snd_name, hn]
    rfl
  · intro c hc
    rw [update_snd_price, hc]
    rfl

/-- Witness for C7 at a concrete store: updating product 1 of dbW with a
payload carrying only a new name and price changes neither the author table
nor the author reference nor the gallery, while applying both scalars. -/
theorem C7_update_frame_absent_keys_witness :
    ((({ name? := some "Renamed", price? := some 9 } : ValidatedData).author? = none →
      (BaseProductSerializer.update dbW 1 ⟨1, "P1", 1, 5, 0, some 1⟩
          { name? := some "Renamed", price? := some 9 }).1.authors = dbW.authors ∧
      (BaseProductSerializer.update dbW 1 ⟨1, "P1", 1, 5, 0, some 1⟩
          { name? := some "Renamed", price? := some 9 }).2.author =
        (⟨1, "P1", 1, 5, 0, some 1⟩ : Product).author) ∧
    (({ name? := some "Renamed", price? := some 9 } : ValidatedData).images? = none →
      (BaseProductSerializer.update dbW 1 ⟨1, "P1", 1, 5, 0, some 1⟩
          { name? := some "Renamed", price? := some 9 }).1.galleries = dbW.galleries) ∧
    (∀ n, ({ name? := some "Renamed", price? := some 9 } : ValidatedData).name? = some n →
      (BaseProductSerializer.update dbW 1 ⟨1, "P1", 1, 5, 0, some 1⟩
          { name? := some "Renamed", price? := some 9 }).2.name = n) ∧
    (∀ c, ({ name? := some "Renamed", price? := some 9 } : ValidatedData).price? = some c →
      (BaseProductSerializer.update dbW 1 ⟨1, "P1", 1, 5, 0, some 1⟩
          { name? := some "Renamed", price? := some 9 }).2.price = c)) :=
  C7_update_frame_absent_keys dbW 1 ⟨1, "P1", 1, 5, 0, some 1⟩
    { name? := some "Renamed", price? := some 9 }

/-- C4: author reconciliation of the update path.  When the validated
payload contains the author key and the product currently references an
author row (whose id is below the id counter, as holds for every row the
store ever created), that author row is deleted from the author table; when
the new payload carries a name, a replacement author owned by the
requesting user with that name exists in the table afterwards and the
product ends the update attached to it; when the new payload is the empty
object, the product ends the update with no author reference. -/
theorem C4_update_author_reconciliation (st : Db) (u : Nat) (inst : Product)
    (vd : ValidatedData) (ap : AuthorPayload) (aid : Nat)
    (hap : vd.author? = some ap) (hia : inst.author = some aid)
    (haid : aid < st.nextAuthorId) :
    (∀ b ∈ (BaseProductSerializer.update st u inst vd).1.authors, b.id ≠ aid) ∧
    (∀ x, ap = .withName x →
      ∃ b ∈ (BaseProductSerializer.update st u inst vd).1.authors,
        b.user = u ∧ b.name = x ∧
          (BaseProductSerializer.update st u inst vd).2.author = some b.id) ∧
    (ap = .emptyDict → (BaseProductSerializer.update st u inst vd).2.author = none) := by
  have hstep : BaseProductSerializer.updateAuthorStep st u (some ap) inst =
      BaseProductSerializer.getOrCreateAuthor (deleteAuthor st aid) u ap
        { inst with author := none } := by
    simp only [BaseProductSerializer.updateAuthorStep, hia]
  have hAuth : (BaseProductSerializer.update st u inst vd).1.authors =
      (BaseProductSerializer.getOrCreateAuthor (deleteAuthor st aid) u ap
        { inst with author := none }).1.authors := by
    rw [update_fst_authors, hap]
    rw [(updateImagesStep_frame
      (BaseProductSerializer.updateAuthorStep st u (some ap) inst).1 vd.images?
      (BaseProductSerializer.updateAuthorStep st u (some ap) inst).2).1]
    rw [hstep]
  have hRef : (BaseProductSerializer.update st u inst vd).2.author =
      (BaseProductSerializer.getOrCreateAuthor (deleteAuthor st aid) u ap
        { inst with author := none }).2.author := by
    rw [update_snd_author, hap, hstep]
  cases ap with
  | emptyDict =>
    rw [getOrCreateAuthor_emptyDict] at hAuth hRef
    refine ⟨?_, ?_, fun _ => hRef⟩
    · intro b hb
      rw [hAuth] at hb
      simp only [deleteAuthor] at hb
      have := (List.mem_filter.mp hb).2
      simpa using this
    · intro x hx
      exact absurd hx (by simp)
  | withName n =>
    cases hf : (deleteAuthor st aid).authors.find? (fun a => a.user = u ∧ a.name = n) with
    | some b =>
      rw [getOrCreateAuthor_found _ _ _ _ _ hf] at hAuth hRef
      simp only [saveProduct] at hAuth
      refine ⟨?_, ?_, ?_⟩
      · intro c hc
        rw [hAuth] at hc
        simp only [deleteAuthor] at hc
        have := (List.mem_filter.mp hc).2
        simpa using this
      · intro x hx
        cases hx
        have hbmem : b ∈ (deleteAuthor st aid).authors := List.mem_of_find?_eq_some hf
        have hbp : b.user = u ∧ b.name = n := by
          have := List.find?_some hf
          simpa using this
        exact ⟨b, by rw [hAuth]; exact hbmem, hbp.1, hbp.2, by rw [hRef]⟩
      · intro hx
        exact absurd hx (by simp)
    | none =>
      rw [getOrCreateAuthor_not_found _ _ _ _ hf] at hAuth hRef
      simp only [saveProduct] at hAuth
      refine ⟨?_, ?_, ?_⟩
      · intro c hc
        rw [hAuth] at hc
        simp only [List.mem_append] at hc
        rcases hc with hc | hc
        · simp only [deleteAuthor] at hc
          have := (List.mem_filter.mp hc).2
          simpa using this
        · simp only [List.mem_singleton] at hc
          subst hc
          show st.nextAuthorId ≠ aid
          omega
      · intro x hx
        cases hx
        refine ⟨⟨st.nextAuthorId, u, n⟩, ?_, rfl, rfl, ?_⟩
        · rw [hAuth]
          simp [deleteAuthor]
        · rw [hRef]
          rfl
      · intro hx
        exact absurd hx (by simp)

/-- Witness for C4 at a concrete store: patching product 1 of dbW (whose
author row is author 1) with a new author name deletes author row 1,
creates a replacement owned by user 1 and attaches it. -/
theorem C4_update_author_reconciliation_witness :
    ((({ author? := some (.withName "Replacement") } : ValidatedData).author? =
        some (AuthorPayload.withName "Replacement")) ∧
      (⟨1, "P1", 1, 5, 0, some 1⟩ : Product).author = some 1 ∧ (1 : Nat) < dbW.nextAuthorId) ∧
    ((∀ b ∈ (BaseProductSerializer.update dbW 1 ⟨1, "P1", 1, 5, 0, some 1⟩
          { author? := some (.withName "Replacement") }).1.authors, b.id ≠ 1) ∧
      (∀ x, AuthorPayload.withName "Replacement" = .withName x →
        ∃ b ∈ (BaseProductSerializer.update dbW 1 ⟨1, "P1", 1, 5, 0, some 1⟩
            { author? := some (.withName "Replacement") }).1.authors,
          b.user = 1 ∧ b.name = x ∧
            (BaseProductSerializer.update dbW 1 ⟨1, "P1", 1, 5, 0, some 1⟩
              { author? := some (.withName "Replacement") }).2.author = some b.id) ∧
      (AuthorPayload.withName "Replacement" = .emptyDict →
        (BaseProductSerializer.update dbW 1 ⟨1, "P1", 1, 5, 0, some 1⟩
          { author? := some (.withName "Replacement") }).2.author = none)) := by
  refine ⟨⟨rfl, rfl, by decide⟩, ?_⟩
  exact C4_update_author_reconciliation dbW 1 ⟨1, "P1", 1, 5, 0, some 1⟩
    { author? := some (.withName "Replacement") } (.withName "Replacement") 1
    rfl rfl (by decide)

theorem createGalleryImages_authors (st : Db) (imgs : List String) (pr : Product) :
    (BaseProductSerializer.createGalleryImages st imgs pr).authors = st.authors := by
  rw [createGalleryImages_spec]

theorem create_fst (st : Db) (u : Nat) (vd : ValidatedData) (now : Nat) :
    (BaseProductSerializer.create st u vd now).1 =
      BaseProductSerializer.createGalleryImages
        (BaseProductSerializer.getOrCreateAuthor
          { st with
            products := st.products ++
              [⟨st.nextProductId, (vd.name?).getD "", u, (vd.price?).getD 0, now, none⟩],
            nextProductId := st.nextProductId + 1 }
          u ((vd.author?).getD .emptyDict)
          ⟨st.nextProductId, (vd.name?).getD "", u, (vd.price?).getD 0, now, none⟩).1
        ((vd.images?).getD [])
        (BaseProductSerializer.getOrCreateAuthor
          { st with
            products := st.products ++
              [⟨st.nextProductId, (vd.name?).getD "", u, (vd.price?).getD 0, now, none⟩],
            nextProductId := st.nextProductId + 1 }
          u ((vd.author?).getD .emptyDict)
          ⟨st.nextProductId, (vd.name?).getD "", u, (vd.price?).getD 0, now, none⟩).2 := rfl

theorem create_snd (st : Db) (u : Nat) (vd : ValidatedData) (now : Nat) :
    (BaseProductSerializer.create st u vd now).2 =
      (BaseProductSerializer.getOrCreateAuthor
        { st with
          products := st.products ++
            [⟨st.nextProductId, (vd.name?).getD "", u, (vd.price?).getD 0, now, none⟩],
          nextProductId := st.nextProductId + 1 }
        u ((vd.author?).getD .emptyDict)
        ⟨st.nextProductId, (vd.name?).getD "", u, (vd.price?).getD 0, now, none⟩).2 := rfl

/-- C3: creating a product with a nested author name for a user that has no
author of that name inserts exactly one author row (owned by that user,
with that name) and attaches it to the new product; a second creation with
the same name for the same user inserts no further author row and attaches
the same author; a creation whose author payload is absent or the empty
object leaves the author reference of the new product unset. -/
theorem C3_create_nested_author_get_or_create (st : Db) (u : Nat) (x : String)
    (vd1 vd2 : ValidatedData) (now1 now2 : Nat)
    (h0 : st.authors.countP (fun a => a.user = u ∧ a.name = x) = 0)
    (h1 : vd1.author? = some (.withName x))
    (h2 : vd2.author? = some (.withName x)) :
    (BaseProductSerializer.create st u vd1 now1).1.authors =
        st.authors ++ [⟨st.nextAuthorId, u, x⟩] ∧
    ((BaseProductSerializer.create st u vd1 now1).1.authors.countP
        (fun a => a.user = u ∧ a.name = x)) = 1 ∧
    (BaseProductSerializer.create st u vd1 now1).2.author = some st.nextAuthorId ∧
    (BaseProductSerializer.create
        (BaseProductSerializer.create st u vd1 now1).1 u vd2 now2).1.authors =
      (BaseProductSerializer.create st u vd1 now1).1.authors ∧
    (BaseProductSerializer.create
        (BaseProductSerializer.create st u vd1 now1).1 u vd2 now2).2.author =
      some st.nextAuthorId ∧
    (∀ (vd0 : ValidatedData) (now0 : Nat),
      vd0.author? = none ∨ vd0.author? = some .emptyDict →
      (BaseProductSerializer.create st u vd0 now0).2.author = none) := by
  have hf : st.authors.find? (fun a => a.user = u ∧ a.name = x) = none := by
    rw [List.find?_eq_none]
    exact List.countP_eq_zero.mp h0
  have hA1 : (BaseProductSerializer.create st u vd1 now1).1.authors =
      st.authors ++ [⟨st.nextAuthorId, u, x⟩] := by
    rw [create_fst, createGalleryImages_authors, h1]
    simp only [Option.getD_some, BaseProductSerializer.getOrCreateAuthor]
    rw [hf]
    rfl
  have hCnt : ((BaseProductSerializer.create st u vd1 now1).1.authors.countP
      (fun a => a.user = u ∧ a.name = x)) = 1 := by
    rw [hA1, List.countP_append, h0]
    simp [List.countP_cons]
  have hR1 : (BaseProductSerializer.create st u vd1 now1).2.author =
      some st.nextAuthorId := by
    rw [create_snd, h1]
    simp only [Option.getD_some, BaseProductSerializer.getOrCreateAuthor]
    rw [hf]
  have hf2 : (BaseProductSerializer.create st u vd1 now1).1.authors.find?
      (fun a => a.user = u ∧ a.name = x) = some ⟨st.nextAuthorId, u, x⟩ := by
    rw [hA1, find?_append_of_none hf]
    simp [List.find?_cons]
  have hA2 : (BaseProductSerializer.create
      (BaseProductSerializer.create st u vd1 now1).1 u vd2 now2).1.authors =
      (BaseProductSerializer.create st u vd1 now1).1.authors := by
    rw [create_fst, createGalleryImages_authors, h2]
    simp only [Option.getD_some, BaseProductSerializer.getOrCreateAuthor]
    rw [hf2]
    rfl
  have hR2 : (BaseProductSerializer.create
      (BaseProductSerializer.create st u vd1 now1).1 u vd2 now2).2.author =
      some st.nextAuthorId := by
    rw [create_snd, h2]
    simp only [Option.getD_some, BaseProductSerializer.getOrCreateAuthor]
    rw [hf2]
  refine ⟨hA1, hCnt, hR1, hA2, hR2, ?_⟩
  intro vd0 now0 h
  rcases h with ha | ha <;>
    · rw [create_snd, ha]
      rfl

/-- Witness for C3 at a concrete store: user 1 of dbW has no author named
Fresh; creating two products with that nested author name creates the
author row once and attaches it both times, and a creation without an
author payload leaves the reference unset. -/
theorem C3_create_nested_author_get_or_create_witness :
    (dbW.authors.countP (fun a => a.user = 1 ∧ a.name = "Fresh") = 0 ∧
      (({ author? := some (.withName "Fresh") } : ValidatedData).author? =
        some (AuthorPayload.withName "Fresh"))) ∧
    ((BaseProductSerializer.create dbW 1 { author? := some (.withName "Fresh") } 0).1.authors =
        dbW.authors ++ [⟨dbW.nextAuthorId, 1, "Fresh"⟩] ∧
      ((BaseProductSerializer.create dbW 1
          { author? := some (.withName "Fresh") } 0).1.authors.countP
        (fun a => a.user = 1 ∧ a.name = "Fresh")) = 1 ∧
      (BaseProductSerializer.create dbW 1
          { author? := some (.withName "Fresh") } 0).2.author = some dbW.nextAuthorId ∧
      (BaseProductSerializer.create
          (BaseProductSerializer.create dbW 1 { author? := some (.withName "Fresh") } 0).1
          1 { author? := some (.withName "Fresh") } 0).1.authors =
        (BaseProductSerializer.create dbW 1
          { author? := some (.withName "Fresh") } 0).1.authors ∧
      (BaseProductSerializer.create
          (BaseProductSerializer.create dbW 1 { author? := some (.withName "Fresh") } 0).1
          1 { author? := some (.withName "Fresh") } 0).2.author = some dbW.nextAuthorId ∧
      (∀ (vd0 : ValidatedData) (now0 : Nat),
        vd0.author? = none ∨ vd0.author? = some .emptyDict →
        (BaseProductSerializer.create dbW 1 vd0 now0).2.author = none)) := by
  refine ⟨⟨by decide, rfl⟩, ?_⟩
  exact C3_create_nested_author_get_or_create dbW 1 "Fresh"
    { author? := some (.withName "Fresh") } { author? := some (.withName "Fresh") } 0 0
    (by decide) rfl rfl

end ApiGoods
